import Mathlib

/-!
A shallow embedding of the fastapi_config library
(src/fastapi_config/__init__.py): a declarative configuration layer in
which Field descriptors resolve values from environment variables with
typed decoding, a metaclass (ConfigMeta) merges field declarations along
an inheritance chain, and Config instances expose lookup and
serialization operations.

Modelling conventions:
- Python values are the inductive PyVal; Python None is PyVal.vNone.
- The process environment (os.environ) is a function String → Option
  String; the load_dotenv call at construction is a pure one-time side
  effect on that table performed by an external collaborator, so the
  theorems simply quantify over the resulting environment.
- Python exceptions are the Except monad with error type PyErr.
- json.loads is Python stdlib, external to this repository; every
  definition that can reach the JSON decoding branch takes it as an
  explicit parameter of type JsonLoads.
- The builtin int(raw) conversion is modelled by pyIntOfString below
  (strip surrounding whitespace, then parse an optionally signed decimal
  literal); str(raw) on a string is the identity.
-/

namespace FastapiConfig

/-- Python values as far as this library manipulates them: field
defaults, decoded environment values and JSON data (dictionaries with
string keys, lists, strings, integers, booleans, None). -/
inductive PyVal where
  | vNone
  | vBool (b : Bool)
  | vInt (n : Int)
  | vStr (s : String)
  | vList (xs : List PyVal)
  | vDict (xs : List (String × PyVal))

/-- Python exceptions raised by the code paths of this library. -/
inductive PyErr where
  | valueError (msg : String)
  | jsonError (msg : String)
  | attributeError (msg : String)
  | typeError (msg : String)

/-- The process environment table, os.environ: a partial map from
variable names to raw string values. -/
abbrev Env := String → Option String

/-- The type of the external json.loads collaborator: parse a raw string
into a JSON value or fail (json.JSONDecodeError). -/
abbrev JsonLoads := String → Except PyErr PyVal

/-- The field_type tags that occur in this library: the source compares
self.type against the builtin bool, against the JSON sentinel string,
and otherwise calls self.type(raw_val), which for the types used by the
repository and its spec is str or int (the closed decoder set
String/Integer/Boolean/JSON of the spec). -/
inductive FieldType where
  | str
  | int
  | bool
  | json

/-- One configuration field descriptor (class Field): default value,
field_type (the decoder), and the private _env_var attribute, which is
None when the declaration supplied no environment variable name. -/
structure Field where
  default : PyVal
  type : FieldType
  env_var : Option String

/-- Python truthiness test on the stored _env_var: the guard
if not self._env_var is taken when it is None or the empty string. -/
def pyFalsyName : Option String → Bool
  | none => true
  | some s => s.isEmpty

/-- Model of the Python str.upper() method (ASCII letters; the library
only ever uppercases identifier-like field names). -/
def pyUpper (s : String) : String := ⟨s.data.map Char.toUpper⟩

/-- Model of the Python str.lower() method (ASCII letters; the library
only ever lowercases raw boolean literals for comparison). -/
def pyLower (s : String) : String := ⟨s.data.map Char.toLower⟩

/-- The env_var property setter: if not self._env_var then
self._env_var = value.upper(); otherwise the assignment is a no-op. -/
def Field.set_env_var (f : Field) (value : String) : Field :=
  if pyFalsyName f.env_var then { f with env_var := some (pyUpper value) } else f

/-- Accumulate a run of decimal digits into a number, failing on the
first non-digit character. -/
def decNat? : List Char → Nat → Option Nat
  | [], acc => some acc
  | c :: cs, acc => if c.isDigit then decNat? cs (acc * 10 + (c.toNat - 48)) else none

/-- Strip leading and trailing whitespace characters. -/
def stripWs (cs : List Char) : List Char :=
  ((cs.dropWhile Char.isWhitespace).reverse.dropWhile Char.isWhitespace).reverse

/-- Model of the Python builtin int(raw) on a string: strip surrounding
whitespace and parse an optionally signed decimal integer, raising
ValueError on malformed input. (Exotic forms such as underscore digit
separators are not modelled; no claim depends on them.) -/
def pyIntOfString (raw : String) : Except PyErr PyVal :=
  let err : Except PyErr PyVal :=
    Except.error (PyErr.valueError ("invalid literal for int() with base 10: " ++ raw))
  match stripWs raw.data with
  | [] => err
  | '-' :: cs =>
    match cs, decNat? cs 0 with
    | _ :: _, some n => Except.ok (PyVal.vInt (-(n : Int)))
    | _, _ => err
  | '+' :: cs =>
    match cs, decNat? cs 0 with
    | _ :: _, some n => Except.ok (PyVal.vInt (n : Int))
    | _, _ => err
  | cs =>
    match decNat? cs 0 with
    | some n => Except.ok (PyVal.vInt (n : Int))
    | none => err

/-- The Field.value property: read os.environ.get(self._env_var); if the
variable is absent return the default untouched; otherwise decode the
raw string according to self.type (bool literal check first, then JSON,
then the generic self.type(raw_val) call, i.e. int or str here).

When _env_var is still None, os.environ.get(None) raises TypeError
(os._Environ encodes its key with str.encode, which rejects None;
Mapping.get only catches KeyError). In the library this path is
unreachable for declared fields because ConfigMeta always assigns a
name, but the model keeps the behaviour faithful. -/
def Field.value (jsonLoads : JsonLoads) (f : Field) (env : Env) : Except PyErr PyVal :=
  match f.env_var with
  | none => Except.error (PyErr.typeError "str expected, not NoneType")
  | some name =>
    match env name with
    | none => Except.ok f.default
    | some raw =>
      match f.type with
      | FieldType.bool =>
        if pyLower raw = "true" then Except.ok (PyVal.vBool true)
        else if pyLower raw = "false" then Except.ok (PyVal.vBool false)
        else Except.error (PyErr.valueError "Bool type must be TRUE or FALSE")
      | FieldType.json => jsonLoads raw
      | FieldType.int => pyIntOfString raw
      | FieldType.str => Except.ok (PyVal.vStr raw)

/-- Python dict assignment d[k] = v on an association list with unique
keys (every dict in this development is built by dictInsert starting
from the empty dict, so keys stay unique): replace the binding in place
if the key is present, else append the new binding. -/
def dictInsert {α : Type} : List (String × α) → String → α → List (String × α)
  | [], k, v => [(k, v)]
  | (k', v') :: d, k, v => if k' == k then (k, v) :: d else (k', v') :: dictInsert d k v

/-- Python dict.update(e): assign every binding of e into d in order. -/
def dictUpdate {α : Type} (d e : List (String × α)) : List (String × α) :=
  e.foldl (fun acc p => dictInsert acc p.1 p.2) d

/-- Python d.get(k): the value of the first (with unique keys, the only)
binding of k, if any. -/
def dictGet? {α : Type} : List (String × α) → String → Option α
  | [], _ => none
  | (k', v) :: d, k => if k' == k then some v else dictGet? d k

/-- The per-class field processing loop of ConfigMeta.__new__: for every
Field-valued attribute of the class body (in declaration order),
cls._vars[name] = attr followed by cls._vars[name].env_var = name, i.e.
the stored Field gets the upper-cased attribute name as environment
variable unless one is already set. -/
def assignEnvNames (own : List (String × Field)) : List (String × Field) :=
  own.map (fun p => (p.1, Field.set_env_var p.2 p.1))

/-- One configuration class in a single-inheritance chain: its directly
declared Field attributes (in class-body declaration order), and its
parent definition if it derives from one. DefNode.base models a class
whose only ancestors are the field-less Config base and object. -/
inductive DefNode where
  | base (own : List (String × Field))
  | child (own : List (String × Field)) (parent : DefNode)

/-- The merged cls._vars computed by ConfigMeta.__new__: starting from a
fresh empty dict, the metaclass updates with each ancestor class's _vars
in reverse method-resolution order and then installs the class body's
own fields. For a single-inheritance chain the ancestor loop collapses
to the immediate parent's merged _vars: each ancestor's _vars was itself
produced by updating its own parent's _vars, so updating with all of
them in base-to-derived order leaves exactly the immediate parent's
merged dict (later updates resupply every earlier binding). The own
fields are then overlaid with their environment names assigned. -/
def DefNode.vars : DefNode → List (String × Field)
  | DefNode.base own => dictUpdate [] (assignEnvNames own)
  | DefNode.child own parent => dictUpdate (DefNode.vars parent) (assignEnvNames own)

/-- A live Config instance: the definition it is bound to (the class,
whose _vars the instance reads through attribute lookup), and the
instance __dict__ entries installed by __init__ from the optional
config mapping. -/
structure Config where
  node : DefNode
  overrides : List (String × Field)

/-- Config.__init__: if a config mapping is supplied (and truthy), each
entry key: value is installed into the instance __dict__ as
Field(value), i.e. an ad hoc field with the literal value as default,
field_type str (the Field default) and no environment binding. (The
leftover debug print in that loop and the load_dotenv call are side
effects outside the data model.) -/
def Config.make (node : DefNode) (config : Option (List (String × PyVal))) : Config :=
  { node := node
    overrides :=
      match config with
      | none => []
      | some cfg =>
        cfg.foldl (fun acc p => dictInsert acc p.1 (Field.mk p.2 FieldType.str none)) [] }

/-- Config.__getattr__: invoked only when normal attribute lookup fails
(ConfigMeta deleted every Field attribute from the class namespace);
resolves the name through the merged _vars, raising AttributeError for
unknown names. -/
def Config.getattr_hook (jl : JsonLoads) (c : Config) (name : String) (env : Env) : Except PyErr PyVal :=
  match dictGet? (DefNode.vars c.node) name with
  | some f => Field.value jl f env
  | none => Except.error (PyErr.attributeError ("No config variable named " ++ name))

/-- The result of a Python attribute access on a Config instance: a hit
in the instance __dict__ yields the stored object itself (here always a
Field descriptor installed by __init__), while the __getattr__ fallback
yields a resolved field value. -/
inductive AttrResult where
  | obj (f : Field)
  | val (v : PyVal)

/-- Full attribute access instance.name for data attributes: the
instance __dict__ (the overrides installed by __init__) is consulted
before __getattr__, and a hit returns the stored Field object itself
(Field instances define no __get__, so they are not descriptors). The
model covers field-like attribute names; it does not model the
pathological shadowing of the internal _vars attribute or of Config's
methods by an override of the same name. -/
def Config.attr (jl : JsonLoads) (c : Config) (name : String) (env : Env) : Except PyErr AttrResult :=
  match dictGet? c.overrides name with
  | some f => Except.ok (AttrResult.obj f)
  | none =>
    match Config.getattr_hook jl c name env with
    | Except.ok v => Except.ok (AttrResult.val v)
    | Except.error e => Except.error e

/-- The dict comprehension of Config.as_dict: resolve every merged field
in order; the first exception raised by a Field.value access propagates
and aborts the comprehension. -/
def resolveAll (jl : JsonLoads) : List (String × Field) → Env → Except PyErr (List (String × PyVal))
  | [], _ => Except.ok []
  | (k, f) :: rest, env =>
    match Field.value jl f env with
    | Except.error e => Except.error e
    | Except.ok v =>
      match resolveAll jl rest env with
      | Except.error e => Except.error e
      | Except.ok d => Except.ok ((k, v) :: d)

/-- Config.as_dict: the body reads self._vars and resolves every field
of it. The read of self._vars is an ordinary Python attribute lookup, so
the instance __dict__ — where __init__ installs the override entries —
is consulted before the class: an override entry named _vars shadows the
merged mapping with a Field object, and the comprehension's call to
.items() on it raises AttributeError (Field has no such attribute; the
model elides the quotes of the CPython message). Otherwise self._vars
resolves to the class attribute computed by ConfigMeta and every field
is resolved in order.

The model invokes the facade methods themselves as the class's methods:
an override entry named after a method (as_dict, get, has_key) would in
Python shadow the bound callable itself and make the call a TypeError;
that artifact of calling through attribute syntax is outside the
modelled facade, and the frame theorem below excludes those names
explicitly. -/
def Config.as_dict (jl : JsonLoads) (c : Config) (env : Env) : Except PyErr (List (String × PyVal)) :=
  if (dictGet? c.overrides "_vars").isSome then
    Except.error (PyErr.attributeError "Field object has no attribute items")
  else
    resolveAll jl (DefNode.vars c.node) env

/-- Config.get(name, default): builds the full as_dict (through
self.as_dict(), so an override entry named _vars makes it raise the same
AttributeError) and then returns _d.get(name, None). Note the source
passes the literal None to dict.get and never uses its default
parameter. -/
def Config.get (jl : JsonLoads) (c : Config) (env : Env) (name : String) (dflt : PyVal) : Except PyErr PyVal :=
  match Config.as_dict jl c env with
  | Except.error e => Except.error e
  | Except.ok d =>
    match dictGet? d name with
    | some v => Except.ok v
    | none => Except.ok PyVal.vNone

/-- Config.has_key(name): builds the full as_dict (through
self.as_dict(), inheriting the _vars shadowing behaviour like get) and
tests name in _d. -/
def Config.has_key (jl : JsonLoads) (c : Config) (env : Env) (name : String) : Except PyErr Bool :=
  match Config.as_dict jl c env with
  | Except.error e => Except.error e
  | Except.ok d => Except.ok (dictGet? d name).isSome

/-! Concrete data mirroring the repository's test suite
(test_inherited_config.py): ParentConfig declares foo, bar, baz and
some_obj; SampleConfig derives from it, re-declares bar and adds puyo. -/

/-- The field foo = Field(default=True, field_type=bool). -/
def fooField : Field := { default := PyVal.vBool true, type := FieldType.bool, env_var := none }

/-- The field bar = Field(default="bar"). -/
def barField : Field := { default := PyVal.vStr "bar", type := FieldType.str, env_var := none }

/-- The field baz = Field(default=25, field_type=int, env_var="QUUX"). -/
def bazField : Field := { default := PyVal.vInt 25, type := FieldType.int, env_var := some "QUUX" }

/-- The nested JSON default of the some_obj field. -/
def someObjDefault : PyVal :=
  PyVal.vDict [("some_int", PyVal.vInt 5), ("some_str", PyVal.vStr "str"),
    ("some_bool", PyVal.vBool true), ("some_list", PyVal.vList [PyVal.vInt 1, PyVal.vInt 2, PyVal.vInt 3])]

/-- The field some_obj = Field(default=..., field_type=JSON). -/
def someObjField : Field := { default := someObjDefault, type := FieldType.json, env_var := none }

/-- The class body of ParentConfig, in declaration order. -/
def parentOwn : List (String × Field) :=
  [("foo", fooField), ("bar", barField), ("baz", bazField), ("some_obj", someObjField)]

/-- ParentConfig as a definition node (its parent is the field-less Config base). -/
def parentNode : DefNode := DefNode.child parentOwn (DefNode.base [])

/-- The class body of SampleConfig: bar re-declared with default "pica",
plus the new field puyo with default "poyo". -/
def sampleOwn : List (String × Field) :=
  [("bar", { default := PyVal.vStr "pica", type := FieldType.str, env_var := none }),
   ("puyo", { default := PyVal.vStr "poyo", type := FieldType.str, env_var := none })]

/-- SampleConfig as a definition node deriving from ParentConfig. -/
def sampleNode : DefNode := DefNode.child sampleOwn parentNode

/-- An environment with no variables set. -/
def emptyEnv : Env := fun _ => none

/-- An environment with FOO set to the literal "True". -/
def envFooTrue : Env := fun k => if k = "FOO" then some "True" else none

/-- An environment with FOO set to "yes", which no boolean decoder accepts. -/
def envFooYes : Env := fun k => if k = "FOO" then some "yes" else none

/-- An environment binding QUUX to "30" and BAZ to "999": the explicit
name QUUX should control the baz field, not its upper-cased field name. -/
def envQuux30 : Env := fun k => if k = "QUUX" then some "30" else if k = "BAZ" then some "999" else none

/-- The foo field as it sits in the merged _vars: the metaclass assigned
the upper-cased field name FOO as its environment variable. -/
def fooFieldAssigned : Field :=
  { default := PyVal.vBool true, type := FieldType.bool, env_var := some "FOO" }

/-- The re-declared bar field of SampleConfig as it sits in the merged
_vars, with the assigned environment variable BAR. -/
def barFieldAssigned : Field :=
  { default := PyVal.vStr "pica", type := FieldType.str, env_var := some "BAR" }

/-- The as_dict result of a SampleConfig instance with no environment
variables set: every field at its declared default, ancestors first. -/
def sampleDefaults : List (String × PyVal) :=
  [("foo", PyVal.vBool true), ("bar", PyVal.vStr "pica"), ("baz", PyVal.vInt 25),
   ("some_obj", someObjDefault), ("puyo", PyVal.vStr "poyo")]

/-- One arbitrary instantiation of the external json.loads parameter,
used by the closed theorems below; none of their inputs ever reaches the
JSON decoding branch, so its behaviour is irrelevant to them. -/
def someJsonLoads : JsonLoads := fun raw => Except.error (PyErr.jsonError raw)

/-! Theorems. -/

/-- C3: for a boolean field whose bound environment variable is set,
resolution maps any casing of true (such as "True" or "TRUE") to the
boolean true, any casing of false (such as "false" or "FALSE") to the
boolean false, and raises the invalid-boolean-literal ValueError for any
other raw string such as "yes". -/
theorem c3_bool_decode (jl : JsonLoads) (f : Field) (name raw : String) (env : Env)
    (hty : f.type = FieldType.bool) (hev : f.env_var = some name) (henv : env name = some raw) :
    (pyLower raw = "true" → Field.value jl f env = Except.ok (PyVal.vBool true)) ∧
    (pyLower raw = "false" → Field.value jl f env = Except.ok (PyVal.vBool false)) ∧
    (pyLower raw ≠ "true" → pyLower raw ≠ "false" →
      Field.value jl f env = Except.error (PyErr.valueError "Bool type must be TRUE or FALSE")) := by
  have hval : Field.value jl f env =
      (if pyLower raw = "true" then Except.ok (PyVal.vBool true)
       else if pyLower raw = "false" then Except.ok (PyVal.vBool false)
       else Except.error (PyErr.valueError "Bool type must be TRUE or FALSE")) := by
    simp only [Field.value, hev, henv, hty]
  refine ⟨fun h1 => ?_, fun h2 => ?_, fun h1 h2 => ?_⟩
  · rw [hval, if_pos h1]
  · rw [hval, if_neg (by rw [h2]; decide), if_pos h2]
  · rw [hval, if_neg h1, if_neg h2]

/-- Witness for C3 at the concrete inputs of the test suite: the foo
field of ParentConfig (environment name FOO, assigned by the metaclass)
resolves "True" to the boolean true. -/
theorem c3_bool_decode_witness :
    (Field.set_env_var fooField "foo").type = FieldType.bool ∧
    (Field.set_env_var fooField "foo").env_var = some "FOO" ∧
    envFooTrue "FOO" = some "True" ∧
    Field.value someJsonLoads (Field.set_env_var fooField "foo") envFooTrue = Except.ok (PyVal.vBool true) :=
  ⟨rfl, rfl, rfl,
    (c3_bool_decode someJsonLoads (Field.set_env_var fooField "foo") "FOO" "True" envFooTrue
      rfl rfl rfl).1 rfl⟩

/-- C4: the env_var setter assigns the upper-cased candidate only when
the stored name is unset or empty; once the stored name is truthy
(whether supplied explicitly at declaration or set by a previous
assignment), every further assignment is a no-op that leaves the field,
and in particular its stored name, unchanged. -/
theorem c4_env_name_assign_once (f : Field) (c d : String) :
    (pyFalsyName f.env_var = true → (Field.set_env_var f c).env_var = some (pyUpper c)) ∧
    (pyFalsyName f.env_var = false → Field.set_env_var f c = f) ∧
    (pyFalsyName (Field.set_env_var f c).env_var = false →
      Field.set_env_var (Field.set_env_var f c) d = Field.set_env_var f c) := by
  refine ⟨fun h => ?_, fun h => ?_, fun h => ?_⟩
  · rw [Field.set_env_var, if_pos h]
  · rw [Field.set_env_var, if_neg (by rw [h]; exact Bool.false_ne_true)]
  · rw [Field.set_env_var, if_neg (by rw [h]; exact Bool.false_ne_true)]

/-- Witness for C4: the baz field carries the explicitly declared name
QUUX, so the metaclass declaration pass (assigning the candidate "baz")
leaves it unchanged. -/
theorem c4_env_name_assign_once_witness :
    pyFalsyName bazField.env_var = false ∧ Field.set_env_var bazField "baz" = bazField :=
  ⟨rfl, (c4_env_name_assign_once bazField "baz" "x").2.1 rfl⟩

/-- C5: a field whose bound environment variable is absent resolves to
exactly its declared default value, for every behaviour of the external
JSON decoder (the decoder is quantified and never applied, so the
default is not re-decoded; nested JSON defaults are returned as
declared). -/
theorem c5_default_when_env_absent (jl : JsonLoads) (f : Field) (name : String) (env : Env)
    (hev : f.env_var = some name) (habs : env name = none) :
    Field.value jl f env = Except.ok f.default := by
  simp only [Field.value, hev, habs]

/-- Witness for C5: with no environment variables set, the some_obj
field (environment name SOME_OBJ assigned by the metaclass) resolves to
its nested JSON default unchanged. -/
theorem c5_default_when_env_absent_witness :
    (Field.set_env_var someObjField "some_obj").env_var = some "SOME_OBJ" ∧
    emptyEnv "SOME_OBJ" = none ∧
    Field.value someJsonLoads (Field.set_env_var someObjField "some_obj") emptyEnv =
      Except.ok (Field.set_env_var someObjField "some_obj").default ∧
    (Field.set_env_var someObjField "some_obj").default = someObjDefault :=
  ⟨rfl, rfl,
    c5_default_when_env_absent someJsonLoads (Field.set_env_var someObjField "some_obj")
      "SOME_OBJ" emptyEnv rfl rfl, rfl⟩

/-- C6: a field declared with an explicit, non-empty environment
variable name keeps that name through the metaclass declaration pass
(the candidate derived from the field name is discarded), its resolution
depends only on that variable of the environment (so it is controlled by
the explicit name, not by the upper-cased field name), and for an
integer field a raw value "30" decodes to the integer 30. -/
theorem c6_explicit_env_name (jl : JsonLoads) (f : Field) (n e : String) (env env2 : Env)
    (hev : f.env_var = some e) (hne : e ≠ "") :
    (Field.set_env_var f n = f) ∧
    (env e = env2 e → Field.value jl f env = Field.value jl f env2) ∧
    (f.type = FieldType.int → env e = some "30" → Field.value jl f env = Except.ok (PyVal.vInt 30)) := by
  refine ⟨?_, fun h => ?_, fun hty h30 => ?_⟩
  · rw [Field.set_env_var, if_neg]
    rw [hev]
    show ¬ e.isEmpty = true
    rw [String.isEmpty_iff]
    exact hne
  · simp only [Field.value, hev]
    rw [h]
  · have hint : pyIntOfString "30" = Except.ok (PyVal.vInt 30) := rfl
    simp only [Field.value, hev, h30, hty, hint]

/-- Witness for C6: the baz field (explicit name QUUX, integer type) in
an environment where QUUX is "30" and the upper-cased field name BAZ is
bound to the unrelated "999": resolution yields the integer 30, which is
not the string "30". -/
theorem c6_explicit_env_name_witness :
    bazField.env_var = some "QUUX" ∧
    envQuux30 "QUUX" = some "30" ∧
    Field.set_env_var bazField "baz" = bazField ∧
    Field.value someJsonLoads bazField envQuux30 = Except.ok (PyVal.vInt 30) :=
  ⟨rfl, rfl,
    (c6_explicit_env_name someJsonLoads bazField "baz" "QUUX" envQuux30 envQuux30 rfl
      (by decide)).1,
    (c6_explicit_env_name someJsonLoads bazField "baz" "QUUX" envQuux30 envQuux30 rfl
      (by decide)).2.2 rfl rfl⟩

/-! Dictionary lemmas used by the merge and facade claims. -/

/-- Looking up after an assignment: the assigned key now maps to the new
value, every other key is untouched. -/
theorem dictGet?_insert {α : Type} (d : List (String × α)) (k k' : String) (v : α) :
    dictGet? (dictInsert d k v) k' = if k == k' then some v else dictGet? d k' := by
  induction d with
  | nil => simp [dictInsert, dictGet?]
  | cons p d ih =>
    obtain ⟨k0, v0⟩ := p
    by_cases h0 : k0 = k
    · subst h0
      by_cases h1 : k0 = k'
      · subst h1; simp [dictInsert, dictGet?]
      · simp [dictInsert, dictGet?, h1]
    · by_cases h1 : k0 = k'
      · subst h1
        have hne : k ≠ k0 := fun h => h0 h.symm
        simp [dictInsert, dictGet?, h0, hne, ih]
      · simp [dictInsert, dictGet?, h0, h1, ih]

/-- A key is absent from a dict exactly when lookup yields nothing. -/
theorem dictGet?_eq_none_iff {α : Type} (d : List (String × α)) (k : String) :
    dictGet? d k = none ↔ k ∉ d.map Prod.fst := by
  induction d with
  | nil => simp [dictGet?]
  | cons p d ih =>
    obtain ⟨k0, v0⟩ := p
    by_cases h : k0 = k
    · subst h; simp [dictGet?]
    · have hne : k ≠ k0 := fun hh => h hh.symm
      simp [dictGet?, h, hne, ih]

/-- Lookup after dict.update(e): a binding of e wins when e binds the
key (e with unique keys), otherwise the original binding remains. -/
theorem dictGet?_update {α : Type} (d e : List (String × α)) (k : String)
    (he : (e.map Prod.fst).Nodup) :
    dictGet? (dictUpdate d e) k = (dictGet? e k).or (dictGet? d k) := by
  induction e generalizing d with
  | nil => simp [dictUpdate, dictGet?]
  | cons p e ih =>
    obtain ⟨k0, v0⟩ := p
    simp only [List.map_cons, List.nodup_cons] at he
    obtain ⟨hk0, he'⟩ := he
    have hstep : dictUpdate d ((k0, v0) :: e) = dictUpdate (dictInsert d k0 v0) e := rfl
    rw [hstep, ih (dictInsert d k0 v0) he', dictGet?_insert]
    by_cases h : k0 = k
    · subst h
      have : dictGet? e k0 = none :=
        (dictGet?_eq_none_iff e k0).mpr hk0
      simp [dictGet?, this]
    · simp [dictGet?, h]

/-- A successful lookup exhibits a binding of the dict. -/
theorem dictGet?_mem {α : Type} {d : List (String × α)} {k : String} {v : α}
    (h : dictGet? d k = some v) : (k, v) ∈ d := by
  induction d with
  | nil => simp [dictGet?] at h
  | cons p d ih =>
    obtain ⟨k0, v0⟩ := p
    by_cases h0 : k0 = k
    · subst h0
      simp [dictGet?] at h
      subst h
      exact List.mem_cons_self _ _
    · simp [dictGet?, h0] at h
      exact List.mem_cons_of_mem _ (ih h)

/-- In a dict with unique keys, a binding determines the lookup. -/
theorem dictGet?_of_mem_nodup {α : Type} {l : List (String × α)} {k : String} {v : α}
    (hnd : (l.map Prod.fst).Nodup) (hmem : (k, v) ∈ l) : dictGet? l k = some v := by
  induction l with
  | nil => simp at hmem
  | cons p l ih =>
    obtain ⟨k0, v0⟩ := p
    simp only [List.map_cons, List.nodup_cons] at hnd
    obtain ⟨hk0, hnd'⟩ := hnd
    rcases List.mem_cons.mp hmem with heq | hmem2
    · obtain ⟨h1, h2⟩ := Prod.mk.injEq k v k0 v0 ▸ heq
      subst h1; subst h2
      simp [dictGet?]
    · have hne : k0 ≠ k := by
        intro hh; subst hh
        exact hk0 (List.mem_map.mpr ⟨(k0, v), hmem2, rfl⟩)
      simp [dictGet?, hne, ih hnd' hmem2]

/-- Lookup commutes with a value-only transformation of the bindings. -/
theorem dictGet?_map_val {α β : Type} (l : List (String × α)) (g : α → β) (k : String) :
    dictGet? (l.map (fun p => (p.1, g p.2))) k = (dictGet? l k).map g := by
  induction l with
  | nil => rfl
  | cons p l ih =>
    obtain ⟨k0, v0⟩ := p
    by_cases h : k0 = k
    · subst h; simp [dictGet?]
    · simp [dictGet?, h, ih]

/-- Two dicts with the same key sequence succeed on the same lookups. -/
theorem dictGet?_isSome_congr {α β : Type} (l1 : List (String × α)) (l2 : List (String × β))
    (k : String) (h : l1.map Prod.fst = l2.map Prod.fst) :
    (dictGet? l1 k).isSome = (dictGet? l2 k).isSome := by
  induction l1 generalizing l2 with
  | nil =>
    cases l2 with
    | nil => rfl
    | cons q l2 => simp at h
  | cons p l1 ih =>
    cases l2 with
    | nil => simp at h
    | cons q l2 =>
      obtain ⟨k1, v1⟩ := p
      obtain ⟨k2, v2⟩ := q
      simp only [List.map_cons, List.cons.injEq] at h
      obtain ⟨hk, ht⟩ := h
      subst hk
      by_cases h0 : k1 = k
      · subst h0; simp [dictGet?]
      · simp [dictGet?, h0, ih l2 ht]

/-- The loop of Config.__init__ installing the overrides is an update of
the empty dict with the wrapped bindings. -/
theorem foldl_insert_map {α β : Type} (cfg : List (String × α)) (w : α → β)
    (acc : List (String × β)) :
    cfg.foldl (fun acc p => dictInsert acc p.1 (w p.2)) acc =
      dictUpdate acc (cfg.map (fun p => (p.1, w p.2))) := by
  induction cfg generalizing acc with
  | nil => rfl
  | cons p cfg ih =>
    simp only [List.foldl_cons, List.map_cons, dictUpdate] at ih ⊢
    exact ih _

/-- The keys of the metaclass field-processing pass are the declared
field names (assigning environment names does not touch keys). -/
theorem assignEnvNames_keys (own : List (String × Field)) :
    (assignEnvNames own).map Prod.fst = own.map Prod.fst := by
  induction own with
  | nil => rfl
  | cons p own ih => simp [assignEnvNames, ih]

/-! Lemmas about the as_dict comprehension. -/

/-- If any field of the list fails to resolve, the comprehension raises. -/
theorem resolveAll_error_of_mem (jl : JsonLoads) (l : List (String × Field)) (env : Env)
    (k : String) (f : Field) (e : PyErr)
    (hmem : (k, f) ∈ l) (hf : Field.value jl f env = Except.error e) :
    ∃ e2, resolveAll jl l env = Except.error e2 := by
  induction l with
  | nil => simp at hmem
  | cons p rest ih =>
    obtain ⟨k0, f0⟩ := p
    cases hv : Field.value jl f0 env with
    | error e0 => exact ⟨e0, by simp [resolveAll, hv]⟩
    | ok v =>
      rcases List.mem_cons.mp hmem with heq | hmem2
      · obtain ⟨h1, h2⟩ := Prod.mk.injEq k f k0 f0 ▸ heq
        subst h1; subst h2
        rw [hf] at hv
        exact Except.noConfusion hv
      · obtain ⟨e2, h2⟩ := ih hmem2
        exact ⟨e2, by simp [resolveAll, hv, h2]⟩

/-- A successful comprehension preserves the key sequence of _vars. -/
theorem resolveAll_keys (jl : JsonLoads) (l : List (String × Field)) (env : Env)
    (d : List (String × PyVal)) (h : resolveAll jl l env = Except.ok d) :
    d.map Prod.fst = l.map Prod.fst := by
  induction l generalizing d with
  | nil =>
    simp only [resolveAll] at h
    obtain rfl := Except.ok.inj h
    rfl
  | cons p rest ih =>
    obtain ⟨k0, f0⟩ := p
    simp only [resolveAll] at h
    cases hv : Field.value jl f0 env with
    | error e =>
      rw [hv] at h
      exact Except.noConfusion h
    | ok v =>
      rw [hv] at h
      cases hr : resolveAll jl rest env with
      | error e =>
        rw [hr] at h
        exact Except.noConfusion h
      | ok d2 =>
        rw [hr] at h
        obtain rfl := Except.ok.inj h
        simp [ih d2 hr]

/-- C2: the merged field mapping of a derived definition binds a field
name declared in the derived class body to that most-derived declaration
(with its environment name assigned), and binds a name the derived body
does not declare to exactly the entry of the parent's merged mapping —
the nearest ancestor's FieldSpec itself, unchanged, so resolution of an
inherited field uses the ancestor's original default value, decoder and
environment-variable name. The hypothesis records that a Python class
body is a dict, hence declares each attribute name once. -/
theorem c2_inheritance_merge (own : List (String × Field)) (p : DefNode) (k : String)
    (hnodup : (own.map Prod.fst).Nodup) :
    dictGet? (DefNode.vars (DefNode.child own p)) k =
      (dictGet? (assignEnvNames own) k).or (dictGet? (DefNode.vars p) k) := by
  have hkeys : ((assignEnvNames own).map Prod.fst).Nodup := by
    rw [assignEnvNames_keys]; exact hnodup
  exact dictGet?_update (DefNode.vars p) (assignEnvNames own) k hkeys

/-- Witness for C2 on the test-suite hierarchy: in SampleConfig the
re-declared bar wins, and the lookup equation of the claim holds. -/
theorem c2_inheritance_merge_witness :
    (sampleOwn.map Prod.fst).Nodup ∧
    dictGet? (DefNode.vars (DefNode.child sampleOwn parentNode)) "bar" =
      (dictGet? (assignEnvNames sampleOwn) "bar").or (dictGet? (DefNode.vars parentNode) "bar") :=
  ⟨by decide, c2_inheritance_merge sampleOwn parentNode "bar" (by decide)⟩

/-- C7: field resolution is independent and no error is caught
internally. If the merged fields bind k to a field whose environment
value fails to decode, then (a) accessing k fails with exactly that
error, (b) the resolution of any other bound name k2 is still its own
field's independent Field.value (unaffected by the bad variable), and
(c) as_dict, which touches every field, propagates a decoding error. -/
theorem c7_independent_resolution (jl : JsonLoads) (c : Config) (env : Env)
    (k k2 : String) (f g : Field) (e : PyErr)
    (hk : dictGet? (DefNode.vars c.node) k = some f)
    (hk2 : dictGet? (DefNode.vars c.node) k2 = some g)
    (hov : dictGet? c.overrides k = none)
    (hf : Field.value jl f env = Except.error e) :
    Config.attr jl c k env = Except.error e ∧
    Config.getattr_hook jl c k2 env = Field.value jl g env ∧
    ∃ e2, Config.as_dict jl c env = Except.error e2 := by
  refine ⟨?_, ?_, ?_⟩
  · simp [Config.attr, Config.getattr_hook, hov, hk, hf]
  · simp [Config.getattr_hook, hk2]
  · by_cases hsh : (dictGet? c.overrides "_vars").isSome = true
    · exact ⟨PyErr.attributeError "Field object has no attribute items",
        by simp [Config.as_dict, hsh]⟩
    · rw [Bool.not_eq_true] at hsh
      obtain ⟨e2, h2⟩ :=
        resolveAll_error_of_mem jl (DefNode.vars c.node) env k f e (dictGet?_mem hk) hf
      exact ⟨e2, by simp [Config.as_dict, hsh, h2]⟩

/-- Witness for C7: with FOO set to the undecodable "yes" on a
SampleConfig instance, accessing foo raises the boolean ValueError,
accessing bar still resolves independently to its own value, and
as_dict raises. -/
theorem c7_independent_resolution_witness :
    dictGet? (DefNode.vars sampleNode) "foo" = some fooFieldAssigned ∧
    dictGet? (DefNode.vars sampleNode) "bar" = some barFieldAssigned ∧
    dictGet? (Config.make sampleNode none).overrides "foo" = none ∧
    Field.value someJsonLoads fooFieldAssigned envFooYes =
      Except.error (PyErr.valueError "Bool type must be TRUE or FALSE") ∧
    Config.attr someJsonLoads (Config.make sampleNode none) "foo" envFooYes =
      Except.error (PyErr.valueError "Bool type must be TRUE or FALSE") ∧
    Config.getattr_hook someJsonLoads (Config.make sampleNode none) "bar" envFooYes =
      Field.value someJsonLoads barFieldAssigned envFooYes ∧
    Config.as_dict someJsonLoads (Config.make sampleNode none) envFooYes =
      Except.error (PyErr.valueError "Bool type must be TRUE or FALSE") :=
  ⟨rfl, rfl, rfl, rfl,
    (c7_independent_resolution someJsonLoads (Config.make sampleNode none) envFooYes "foo" "bar"
      fooFieldAssigned barFieldAssigned (PyErr.valueError "Bool type must be TRUE or FALSE")
      rfl rfl rfl rfl).1,
    (c7_independent_resolution someJsonLoads (Config.make sampleNode none) envFooYes "foo" "bar"
      fooFieldAssigned barFieldAssigned (PyErr.valueError "Bool type must be TRUE or FALSE")
      rfl rfl rfl rfl).2.1,
    rfl⟩

/-- Counterexample for C8 as stated: has_key builds the full as_dict
first, so with FOO set to the undecodable "yes" it raises the boolean
ValueError instead of returning a boolean — even though the queried name
bar is present in the merged fields. -/
theorem c8_counterexample_has_key_raises :
    Config.has_key someJsonLoads (Config.make sampleNode none) envFooYes "bar" =
      Except.error (PyErr.valueError "Bool type must be TRUE or FALSE") ∧
    (dictGet? (DefNode.vars sampleNode) "bar").isSome = true :=
  ⟨rfl, rfl⟩

/-- C8 (amended): whenever every field's environment value decodes (i.e.
as_dict succeeds), has_key returns true exactly when the name is present
in the merged fields; when some field's environment value is
undecodable, has_key propagates that decoding error instead of
returning a boolean. -/
theorem c8_has_key_iff_merged (jl : JsonLoads) (c : Config) (env : Env) (name : String)
    (d : List (String × PyVal)) (h : Config.as_dict jl c env = Except.ok d) :
    Config.has_key jl c env name = Except.ok ((dictGet? (DefNode.vars c.node) name).isSome) := by
  have hres : resolveAll jl (DefNode.vars c.node) env = Except.ok d := by
    by_cases hsh : (dictGet? c.overrides "_vars").isSome = true
    · exfalso
      have hbad : Config.as_dict jl c env =
          Except.error (PyErr.attributeError "Field object has no attribute items") := by
        simp [Config.as_dict, hsh]
      rw [hbad] at h
      exact Except.noConfusion h
    · rw [Bool.not_eq_true] at hsh
      have hok : Config.as_dict jl c env = resolveAll jl (DefNode.vars c.node) env := by
        simp [Config.as_dict, hsh]
      exact hok.symm.trans h
  have hkeys := resolveAll_keys jl (DefNode.vars c.node) env d hres
  simp only [Config.has_key, h]
  rw [dictGet?_isSome_congr d (DefNode.vars c.node) name hkeys]

/-- Witness for C8 (amended): with no environment variables set the
as_dict of a SampleConfig instance succeeds, and has_key reports the
presence of bar. -/
theorem c8_has_key_iff_merged_witness :
    Config.as_dict someJsonLoads (Config.make sampleNode none) emptyEnv = Except.ok sampleDefaults ∧
    Config.has_key someJsonLoads (Config.make sampleNode none) emptyEnv "bar" = Except.ok true :=
  ⟨rfl,
    (c8_has_key_iff_merged someJsonLoads (Config.make sampleNode none) emptyEnv "bar"
      sampleDefaults rfl).trans rfl⟩

/-- Counterexample for C9 as stated: with the override mapping binding
bar to the value "override", attribute lookup of bar does not yield that
value — Config.__init__ stored Field("override") itself in the instance
__dict__, and Field instances are not descriptors, so the access returns
the raw Field object instead. -/
theorem c9_counterexample_attr_is_field_object :
    Config.attr someJsonLoads
        (Config.make sampleNode (some [("bar", PyVal.vStr "override")])) "bar" emptyEnv ≠
      Except.ok (AttrResult.val (PyVal.vStr "override")) := by
  intro h
  have hval : Config.attr someJsonLoads
      (Config.make sampleNode (some [("bar", PyVal.vStr "override")])) "bar" emptyEnv =
      Except.ok (AttrResult.obj
        { default := PyVal.vStr "override", type := FieldType.str, env_var := none }) := rfl
  exact AttrResult.noConfusion (Except.ok.inj (hval.symm.trans h))

/-- C9 (amended): each override entry name: v is installed, for that
instance only, as an ad hoc field with v as its default and no
environment binding, shadowing any same-named inherited field; but the
attribute lookup of that name yields the raw ad hoc Field object that
wraps v — not v itself, and not the inherited field's resolved value —
while the shared definition (and hence other instances) is untouched. -/
theorem c9_override_installs_adhoc_field (node : DefNode) (cfg : List (String × PyVal))
    (name : String) (v : PyVal) (jl : JsonLoads) (env : Env)
    (hnd : (cfg.map Prod.fst).Nodup) (hmem : (name, v) ∈ cfg) :
    dictGet? (Config.make node (some cfg)).overrides name =
      some { default := v, type := FieldType.str, env_var := none } ∧
    Config.attr jl (Config.make node (some cfg)) name env =
      Except.ok (AttrResult.obj { default := v, type := FieldType.str, env_var := none }) ∧
    (Config.make node (some cfg)).node = node := by
  have hwrap : (Config.make node (some cfg)).overrides =
      dictUpdate [] (cfg.map (fun p => (p.1, Field.mk p.2 FieldType.str none))) :=
    foldl_insert_map cfg (fun v => Field.mk v FieldType.str none) []
  have hkeys : ((cfg.map (fun p => (p.1, Field.mk p.2 FieldType.str none))).map Prod.fst).Nodup := by
    simpa [List.map_map, Function.comp] using hnd
  have h1 : dictGet? (cfg.map (fun p => (p.1, Field.mk p.2 FieldType.str none))) name =
      (dictGet? cfg name).map (fun v => Field.mk v FieldType.str none) :=
    dictGet?_map_val cfg (fun v => Field.mk v FieldType.str none) name
  have hget : dictGet? (Config.make node (some cfg)).overrides name =
      some { default := v, type := FieldType.str, env_var := none } := by
    rw [hwrap, dictGet?_update [] _ name hkeys, h1, dictGet?_of_mem_nodup hnd hmem]
    rfl
  refine ⟨hget, ?_, rfl⟩
  simp [Config.attr, hget]

/-- Witness for C9 (amended): the override bar: "override" on a
SampleConfig instance is installed as Field("override") and attribute
access returns that Field object. -/
theorem c9_override_installs_adhoc_field_witness :
    ((([("bar", PyVal.vStr "override")] : List (String × PyVal)).map Prod.fst).Nodup) ∧
    dictGet? (Config.make sampleNode (some [("bar", PyVal.vStr "override")])).overrides "bar" =
      some { default := PyVal.vStr "override", type := FieldType.str, env_var := none } ∧
    Config.attr someJsonLoads
        (Config.make sampleNode (some [("bar", PyVal.vStr "override")])) "bar" emptyEnv =
      Except.ok (AttrResult.obj
        { default := PyVal.vStr "override", type := FieldType.str, env_var := none }) ∧
    (Config.make sampleNode (some [("bar", PyVal.vStr "override")])).node = sampleNode :=
  ⟨by decide,
    c9_override_installs_adhoc_field sampleNode [("bar", PyVal.vStr "override")] "bar"
      (PyVal.vStr "override") someJsonLoads emptyEnv (by decide)
      (List.mem_cons_self ("bar", PyVal.vStr "override") [])⟩

/-- Lookup in the dict built by the override-installing loop fails
exactly when it fails in both the starting dict and the source mapping. -/
theorem dictGet?_foldl_insert_none {α β : Type} (cfg : List (String × α)) (w : α → β)
    (acc : List (String × β)) (k : String) :
    dictGet? (cfg.foldl (fun a p => dictInsert a p.1 (w p.2)) acc) k = none ↔
      (dictGet? acc k = none ∧ dictGet? cfg k = none) := by
  induction cfg generalizing acc with
  | nil => simp [dictGet?]
  | cons p cfg ih =>
    obtain ⟨k0, v0⟩ := p
    rw [List.foldl_cons, ih (dictInsert acc k0 (w v0)), dictGet?_insert]
    by_cases h : k0 = k
    · subst h; simp [dictGet?]
    · simp [dictGet?, h]

/-- A name absent from the caller's override mapping is absent from the
installed instance __dict__. -/
theorem overrides_get_none (node : DefNode) (cfg : List (String × PyVal)) (k : String)
    (h : dictGet? cfg k = none) :
    dictGet? (Config.make node (some cfg)).overrides k = none :=
  (dictGet?_foldl_insert_none cfg (fun v => Field.mk v FieldType.str none) [] k).mpr ⟨rfl, h⟩

/-- Counterexample for C10 as stated: an override entry named _vars is
installed into the instance __dict__ like any other entry, where it
shadows the class-level merged mapping, so as_dict — and with it get and
has_key — raises AttributeError on that instance while the same
definition without overrides serializes its defaults normally. The
overrides are therefore not without effect on these operations. -/
theorem c10_counterexample_vars_override_breaks_as_dict :
    Config.as_dict someJsonLoads
        (Config.make sampleNode (some [("_vars", PyVal.vInt 1)])) emptyEnv =
      Except.error (PyErr.attributeError "Field object has no attribute items") ∧
    Config.get someJsonLoads
        (Config.make sampleNode (some [("_vars", PyVal.vInt 1)])) emptyEnv "bar" PyVal.vNone =
      Except.error (PyErr.attributeError "Field object has no attribute items") ∧
    Config.has_key someJsonLoads
        (Config.make sampleNode (some [("_vars", PyVal.vInt 1)])) emptyEnv "bar" =
      Except.error (PyErr.attributeError "Field object has no attribute items") ∧
    Config.as_dict someJsonLoads (Config.make sampleNode none) emptyEnv =
      Except.ok sampleDefaults :=
  ⟨rfl, rfl, rfl, rfl⟩

/-- C10 (amended): provided no override entry is named after the
internal _vars attribute or one of the facade methods (as_dict, get,
has_key) — the names through which an instance __dict__ entry can
shadow what these operations use — as_dict, get and has_key read only
the definition's merged fields and the environment: an instance
constructed with such an override mapping gives exactly the same results
as one constructed without, and a name absent from the merged fields
(such as an override-only name) never appears in the as_dict key set. -/
theorem c10_overrides_frame (jl : JsonLoads) (node : DefNode)
    (cfg : List (String × PyVal)) (env : Env) (name oname : String) (dflt : PyVal)
    (d : List (String × PyVal))
    (hv : dictGet? cfg "_vars" = none)
    (ha : dictGet? cfg "as_dict" = none)
    (hg : dictGet? cfg "get" = none)
    (hh : dictGet? cfg "has_key" = none) :
    (Config.as_dict jl (Config.make node (some cfg)) env =
      Config.as_dict jl (Config.make node none) env) ∧
    (Config.get jl (Config.make node (some cfg)) env name dflt =
      Config.get jl (Config.make node none) env name dflt) ∧
    (Config.has_key jl (Config.make node (some cfg)) env name =
      Config.has_key jl (Config.make node none) env name) ∧
    (Config.as_dict jl (Config.make node (some cfg)) env = Except.ok d →
      dictGet? (DefNode.vars node) oname = none → oname ∉ d.map Prod.fst) := by
  have hso : dictGet? (Config.make node (some cfg)).overrides "_vars" = none :=
    overrides_get_none node cfg "_vars" hv
  have has1 : Config.as_dict jl (Config.make node (some cfg)) env =
      resolveAll jl (DefNode.vars node) env := by
    simp only [Config.as_dict, hso]
    rfl
  have has0 : Config.as_dict jl (Config.make node none) env =
      resolveAll jl (DefNode.vars node) env := rfl
  refine ⟨has1.trans has0.symm, ?_, ?_, fun h hno => ?_⟩
  · simp only [Config.get, has1, has0]
  · simp only [Config.has_key, has1, has0]
  · have hkeys := resolveAll_keys jl (DefNode.vars node) env d (has1.symm.trans h)
    rw [hkeys]
    exact (dictGet?_eq_none_iff (DefNode.vars node) oname).mp hno

/-- Witness for C10 (amended): the override mapping binding only bar
avoids the reserved names, the overridden SampleConfig instance
serializes exactly like a plain one (to the declared defaults), and the
override-only name nope is not in the key set. -/
theorem c10_overrides_frame_witness :
    dictGet? ([("bar", PyVal.vStr "override")] : List (String × PyVal)) "_vars" = none ∧
    dictGet? ([("bar", PyVal.vStr "override")] : List (String × PyVal)) "as_dict" = none ∧
    dictGet? ([("bar", PyVal.vStr "override")] : List (String × PyVal)) "get" = none ∧
    dictGet? ([("bar", PyVal.vStr "override")] : List (String × PyVal)) "has_key" = none ∧
    Config.as_dict someJsonLoads
        (Config.make sampleNode (some [("bar", PyVal.vStr "override")])) emptyEnv =
      Config.as_dict someJsonLoads (Config.make sampleNode none) emptyEnv ∧
    Config.as_dict someJsonLoads
        (Config.make sampleNode (some [("bar", PyVal.vStr "override")])) emptyEnv =
      Except.ok sampleDefaults ∧
    dictGet? (DefNode.vars sampleNode) "nope" = none ∧
    "nope" ∉ sampleDefaults.map Prod.fst :=
  ⟨rfl, rfl, rfl, rfl,
    (c10_overrides_frame someJsonLoads sampleNode [("bar", PyVal.vStr "override")]
      emptyEnv "bar" "nope" PyVal.vNone sampleDefaults rfl rfl rfl rfl).1,
    rfl, rfl,
    (c10_overrides_frame someJsonLoads sampleNode [("bar", PyVal.vStr "override")]
      emptyEnv "bar" "nope" PyVal.vNone sampleDefaults rfl rfl rfl rfl).2.2.2 rfl rfl⟩

/-- C1 (divergence of the code at the failing input): get("missing",
"fallback") on a SampleConfig instance returns None — the source passes
the literal None to dict.get and never uses its default parameter — so
the caller-supplied fallback is not returned; and because get builds the
full as_dict, it raises when any field's environment value is
undecodable, so the operation is not raise-free either. -/
theorem c1_get_ignores_default :
    Config.get someJsonLoads (Config.make sampleNode none) emptyEnv "missing" (PyVal.vStr "fallback") =
      Except.ok PyVal.vNone ∧
    Config.get someJsonLoads (Config.make sampleNode none) envFooYes "missing" PyVal.vNone =
      Except.error (PyErr.valueError "Bool type must be TRUE or FALSE") :=
  ⟨rfl, rfl⟩

end FastapiConfig
